import Mathlib

/-!
Verification of the GreenPoints backend (`src/main.py`, `src/schemas.py`).

The logic layer is embedded shallowly:
* `POINTS_TABLE` is the fixed dict of per-unit point values.
* `Store` models the document store (the `activity` and `badge` collections
  plus a fresh-id counter); `database.py` is not part of the sources, so the
  store adapter (`create_document`, `get_documents`, `db.aggregate`) is
  modelled from the spec's store-adapter contract.
* Fallible inserts are driven by an `Oracle`: a list of `Option String`
  where `none` means the next insert succeeds and `some msg` means it raises
  an exception with message `msg` (an exhausted oracle means success).
* `log_activity`, `leaderboard`, `list_activities`, `get_badges`,
  `shareable_summary` and `seed` follow the Python route handlers line by
  line; HTTP errors are `HErr` values (status code and detail).
-/

namespace GreenPoints

/-- One record of the `activity` collection (schema `Activity` in
`src/schemas.py`, fields as built by `log_activity`). -/
structure Activity where
  username : String
  activity_type : String
  quantity : Int
  points : Int
  notes : Option String
deriving Repr, DecidableEq

/-- One record of the `badge` collection (schema `Badge` in `src/schemas.py`). -/
structure Badge where
  username : String
  badge_key : String
  name : String
  description : String
  icon : String
deriving Repr, DecidableEq

/-- A badge descriptor as appended to `maybe_badges` in `log_activity`
(everything but the username). -/
structure BadgeDescr where
  badge_key : String
  name : String
  description : String
  icon : String
deriving Repr, DecidableEq

def mkBadge (u : String) (d : BadgeDescr) : Badge :=
  ⟨u, d.badge_key, d.name, d.description, d.icon⟩

/-- `POINTS_TABLE` from `src/main.py`, embedded as the dict's lookup
function (`some v` when the key is present). -/
def POINTS_TABLE : String → Option Int := fun t =>
  if t = "public_transport" then some 15
  else if t = "vegan_meal" then some 10
  else if t = "recycling" then some 8
  else if t = "bike_ride" then some 12
  else if t = "refill" then some 6
  else if t = "thrift" then some 14
  else if t = "tree_planting" then some 50
  else none

/-- The fixed 7-tag activity-type set (the keys of `POINTS_TABLE`). -/
def VALID_TYPES : List String :=
  ["public_transport", "vegan_meal", "recycling", "bike_ride", "refill",
   "thrift", "tree_planting"]

/-- Request body of `POST /api/activities` (`ActivityCreate` in `src/main.py`,
with its defaults `quantity=1`, `notes=None`). -/
structure ActivityCreate where
  username : String
  activity_type : String
  quantity : Int := 1
  notes : Option String := none
deriving Repr, DecidableEq

/-- Modelled from the spec: the document store holding the `activity` and
`badge` collections written by this system, with a counter supplying fresh
insert ids (`database.py` is not among the sources; the spec's store-adapter
contract is `insertOne -> id`, `findMany(filter, limit?)`, `aggregate`). -/
structure Store where
  activities : List Activity
  badges : List Badge
  nextId : Nat
deriving Repr, DecidableEq

def store0 : Store := ⟨[], [], 0⟩

/-- Outcomes of the successive `create_document` calls: `none` = success,
`some msg` = the insert raises an exception with message `msg`; an exhausted
oracle means every remaining insert succeeds. -/
abbrev Oracle := List (Option String)

def dbStep (o : Oracle) : Option String × Oracle := (o.headD none, o.tail)

/-- An HTTP error (`HTTPException(status_code, detail)`). -/
structure HErr where
  status : Nat
  detail : String
deriving Repr, DecidableEq

/-- The JSON object returned by a successful `log_activity` call: the badge
list pairs each created badge's id with its descriptor. -/
structure LogResult where
  inserted_id : Nat
  points : Int
  badges : List (Nat × BadgeDescr)
deriving Repr, DecidableEq

/-- The `plant_power` badge dict from `log_activity`. -/
def plant_power : BadgeDescr :=
  ⟨"plant_power", "Plant Power", "Logged 3+ vegan meals in one go!", "leaf"⟩

/-- The `big_impact` badge dict from `log_activity`. -/
def big_impact : BadgeDescr :=
  ⟨"big_impact", "Big Impact", "Scored 50+ points from one action", "zap"⟩

/-- The `maybe_badges` list built in `log_activity` (`src/main.py` lines
104–118): the two rules, evaluated on the raw payload quantity and on the
computed total points, appended in source order. -/
def maybe_badges (activity_type : String) (quantity : Int) (total_points : Int) :
    List BadgeDescr :=
  (if activity_type = "vegan_meal" ∧ quantity ≥ 3 then [plant_power] else []) ++
  (if total_points ≥ 50 then [big_impact] else [])

/-- The badge-persisting loop of `log_activity`: for each descriptor,
`create_document("badge", …)` and collect `(id, descriptor)`; the first
failing insert raises, keeping the records persisted so far. -/
def insertBadges (u : String) :
    Oracle → Store → List BadgeDescr →
      Except String (List (Nat × BadgeDescr)) × Store × Oracle
  | o, s, [] => (.ok [], s, o)
  | o, s, d :: ds =>
    match dbStep o with
    | (some msg, o1) => (.error msg, s, o1)
    | (none, o1) =>
      let bid := s.nextId
      let s1 : Store :=
        { s with badges := s.badges ++ [mkBadge u d], nextId := s.nextId + 1 }
      match insertBadges u o1 s1 ds with
      | (.error msg, s2, o2) => (.error msg, s2, o2)
      | (.ok rest, s2, o2) => (.ok ((bid, d) :: rest), s2, o2)

/-- `log_activity` (`POST /api/activities`, `src/main.py` lines 87–126):
reject unknown activity types with 400; compute
`total_points = POINTS_TABLE[type] * max(1, quantity)`; persist the activity
with the clamped quantity; evaluate and persist badges; any exception inside
the try block surfaces as a 500 carrying the exception's message. -/
def log_activity (o : Oracle) (s : Store) (p : ActivityCreate) :
    Except HErr LogResult × Store × Oracle :=
  match POINTS_TABLE p.activity_type with
  | none => (.error ⟨400, "Unknown activity type"⟩, s, o)
  | some points_per =>
    let total_points := points_per * max 1 p.quantity
    let act : Activity :=
      ⟨p.username, p.activity_type, max 1 p.quantity, total_points, p.notes⟩
    match dbStep o with
    | (some msg, o1) => (.error ⟨500, msg⟩, s, o1)
    | (none, o1) =>
      let aid := s.nextId
      let s1 : Store :=
        { s with activities := s.activities ++ [act], nextId := s.nextId + 1 }
      match insertBadges p.username o1 s1
          (maybe_badges p.activity_type p.quantity total_points) with
      | (.error msg, s2, o2) => (.error ⟨500, msg⟩, s2, o2)
      | (.ok bs, s2, o2) => (.ok ⟨aid, total_points, bs⟩, s2, o2)

/-- Sum of the `points` of `u`'s activity records (the `$group`/`$sum`
aggregation value for `u`). -/
def totalPoints (u : String) (acts : List Activity) : Int :=
  ((acts.filter (fun a => a.username = u)).map (fun a => a.points)).sum

/-- First-occurrence deduplication (skipping names already seen), giving the
grouping keys of a `$group` stage in encounter order. -/
def firstOccurAux (seen : List String) : List String → List String
  | [] => []
  | u :: rest =>
    if u ∈ seen then firstOccurAux seen rest
    else u :: firstOccurAux (seen ++ [u]) rest

def firstOccur (l : List String) : List String := firstOccurAux [] l

/-- Modelled from the spec: the `$group {_id: $username, points: $sum $points}`
stage of the leaderboard pipeline — one `(username, summed points)` row per
distinct username (`database.py` / the store's `aggregate` primitive is not
among the sources). -/
def groupRows (acts : List Activity) : List (String × Int) :=
  (firstOccur (acts.map (fun a => a.username))).map
    (fun u => (u, totalPoints u acts))

/-- Insertion step of a stable descending sort on the summed points. -/
def insertDesc (x : String × Int) : List (String × Int) → List (String × Int)
  | [] => [x]
  | y :: ys => if y.2 ≤ x.2 then x :: y :: ys else y :: insertDesc x ys

/-- Modelled from the spec: the `$sort {points: -1}` stage — sort rows by
descending summed points. -/
def sortDesc : List (String × Int) → List (String × Int)
  | [] => []
  | x :: xs => insertDesc x (sortDesc xs)

/-- `leaderboard` (`GET /api/leaderboard`, `src/main.py` lines 63–77):
group activities by username summing points, sort descending, truncate to
`limit`. -/
def leaderboard (limit : Nat) (s : Store) : List (String × Int) :=
  (sortDesc (groupRows s.activities)).take limit

/-- `list_activities` (`GET /api/activities`, `src/main.py` lines 79–85):
`filt = {"username": username} if username else {}` — the filter applies only
when `username` is truthy (neither `None` nor the empty string) — then
`get_documents("activity", filt, limit)`. -/
def list_activities (s : Store) (username : Option String) (limit : Nat) :
    List Activity :=
  let filt : Activity → Bool :=
    match username with
    | some u => if u = "" then (fun _ => true) else (fun a => a.username = u)
    | none => fun _ => true
  (s.activities.filter filt).take limit

/-- `get_badges` (`GET /api/badges`, `src/main.py` lines 128–134): same
truthiness-guarded filter, no limit. -/
def get_badges (s : Store) (username : Option String) : List Badge :=
  let filt : Badge → Bool :=
    match username with
    | some u => if u = "" then (fun _ => true) else (fun b => b.username = u)
    | none => fun _ => true
  s.badges.filter filt

/-- The JSON object returned by `POST /api/summary`. -/
structure SummaryOut where
  username : String
  total_points : Int
  activities_logged : Nat
  badges : List Badge
  share_text : String
deriving Repr, DecidableEq

/-- `shareable_summary` (`POST /api/summary`, `src/main.py` lines 136–162):
`$match` on the username then `$group` summing points and counting records
(zero if no rows), fetch the user's badges, and format the share text. -/
def shareable_summary (s : Store) (username : String) : SummaryOut :=
  let matched := s.activities.filter (fun a => a.username = username)
  let total_points : Int := (matched.map (fun a => a.points)).sum
  let count : Nat := matched.length
  { username := username
    total_points := total_points
    activities_logged := count
    badges := s.badges.filter (fun b => b.username = username)
    share_text :=
      username ++ " earned " ++ toString total_points ++
        " Green Points with " ++ toString count ++ " eco actions! 🌿" }

/-- The four fixed demo activities of `seed` (`src/main.py` lines 167–172). -/
def demoItems : List (String × Int) :=
  [("public_transport", 2), ("vegan_meal", 3), ("recycling", 5), ("bike_ride", 1)]

/-- The loop of `seed`: one `log_activity` call per demo item; an
`HTTPException` raised by `log_activity` propagates, aborting the rest. -/
def seedLoop (username : String) :
    Oracle → Store → List (String × Int) →
      Except HErr (List LogResult) × Store × Oracle
  | o, s, [] => (.ok [], s, o)
  | o, s, item :: rest =>
    match log_activity o s ⟨username, item.1, item.2, none⟩ with
    | (.error e, s1, o1) => (.error e, s1, o1)
    | (.ok r, s1, o1) =>
      match seedLoop username o1 s1 rest with
      | (.error e, s2, o2) => (.error e, s2, o2)
      | (.ok rs, s2, o2) => (.ok (r :: rs), s2, o2)

/-- `seed` (`POST /api/seed`, `src/main.py` lines 165–178). -/
def seed (o : Oracle) (s : Store) (username : String) :
    Except HErr (List LogResult) × Store × Oracle :=
  seedLoop username o s demoItems

/-- One store transition of the system: a `log_activity` call or a `seed`
call, under any oracle and any payload. -/
inductive Step : Store → Store → Prop
  | log (o : Oracle) (p : ActivityCreate) (s : Store) :
      Step s (log_activity o s p).2.1
  | seedCall (o : Oracle) (u : String) (s : Store) :
      Step s (seed o s u).2.1

/-- Store states reachable from the empty store by this system's write
operations. -/
inductive Reachable : Store → Prop
  | init : Reachable store0
  | step {s s' : Store} : Reachable s → Step s s' → Reachable s'

/-- Invariant of a persisted activity record: quantity at least 1 and points
derived from the table, never caller-supplied. -/
def ActivityOk (a : Activity) : Prop :=
  1 ≤ a.quantity ∧ 0 ≤ a.points ∧
    ∃ per, POINTS_TABLE a.activity_type = some per ∧ a.points = a.quantity * per

/-- Every activity record of the store satisfies `ActivityOk`. -/
def ActivitiesOk (s : Store) : Prop := ∀ a ∈ s.activities, ActivityOk a

/-- Every badge record of the store is backed by an activity record of the
same user. -/
def BadgesBacked (s : Store) : Prop :=
  ∀ b ∈ s.badges, ∃ a ∈ s.activities, a.username = b.username

/-! ### Lemmas about the points table -/

theorem POINTS_TABLE_eq_none_of_not_mem {t : String} (h : t ∉ VALID_TYPES) :
    POINTS_TABLE t = none := by
  simp only [VALID_TYPES, List.mem_cons, List.not_mem_nil, or_false, not_or] at h
  obtain ⟨h1, h2, h3, h4, h5, h6, h7⟩ := h
  simp [POINTS_TABLE, h1, h2, h3, h4, h5, h6, h7]

theorem POINTS_TABLE_some_of_mem {t : String} (h : t ∈ VALID_TYPES) :
    ∃ per, POINTS_TABLE t = some per := by
  simp only [VALID_TYPES, List.mem_cons, List.not_mem_nil, or_false] at h
  rcases h with rfl | rfl | rfl | rfl | rfl | rfl | rfl <;>
    exact ⟨_, rfl⟩

theorem POINTS_TABLE_pos {t : String} {per : Int}
    (h : POINTS_TABLE t = some per) : 0 < per := by
  unfold POINTS_TABLE at h
  repeat' split at h
  all_goals simp_all
  all_goals omega

/-! ### Elimination lemmas for the badge-insert loop and `log_activity` -/

theorem insertBadges_cases (u : String) (ds : List BadgeDescr) :
    ∀ (o : Oracle) (s : Store) (res : Except String (List (Nat × BadgeDescr)))
      (s2 : Store) (o2 : Oracle),
      insertBadges u o s ds = (res, s2, o2) →
        s2.activities = s.activities ∧
        (∀ b ∈ s2.badges, b ∈ s.badges ∨ b.username = u) ∧
        (∀ bs, res = .ok bs →
          bs.map Prod.snd = ds ∧ s2.badges = s.badges ++ ds.map (mkBadge u)) := by
  induction ds with
  | nil =>
    intro o s res s2 o2 h
    rw [insertBadges] at h
    obtain ⟨rfl, rfl, rfl⟩ := Prod.mk.injEq .. ▸ h
    refine ⟨rfl, fun b hb => Or.inl hb, fun bs hbs => ?_⟩
    cases hbs
    simp
  | cons d ds ih =>
    intro o s res s2 o2 h
    rw [insertBadges] at h
    rcases hdb : dbStep o with ⟨m, o1⟩
    rw [hdb] at h
    rcases m with _ | msg
    · dsimp only at h
      rcases hrec : insertBadges u o1
          { s with badges := s.badges ++ [mkBadge u d], nextId := s.nextId + 1 }
          ds with ⟨res1, s3, o3⟩
      rw [hrec] at h
      have hih := ih o1 _ res1 s3 o3 hrec
      rcases res1 with msg1 | rest
      · dsimp only at h
        obtain ⟨rfl, rfl, rfl⟩ := Prod.mk.injEq .. ▸ h
        refine ⟨hih.1, fun b hb => ?_, fun bs hbs => by cases hbs⟩
        rcases hih.2.1 b hb with hb1 | hb1
        · simp only [List.mem_append, List.mem_singleton] at hb1
          rcases hb1 with hb1 | rfl
          · exact Or.inl hb1
          · exact Or.inr rfl
        · exact Or.inr hb1
      · dsimp only at h
        obtain ⟨rfl, rfl, rfl⟩ := Prod.mk.injEq .. ▸ h
        refine ⟨hih.1, fun b hb => ?_, fun bs hbs => ?_⟩
        · rcases hih.2.1 b hb with hb1 | hb1
          · simp only [List.mem_append, List.mem_singleton] at hb1
            rcases hb1 with hb1 | rfl
            · exact Or.inl hb1
            · exact Or.inr rfl
          · exact Or.inr hb1
        · cases hbs
          have := hih.2.2 rest rfl
          constructor
          · simp [this.1]
          · rw [this.2]
            simp
    · dsimp only at h
      obtain ⟨rfl, rfl, rfl⟩ := Prod.mk.injEq .. ▸ h
      exact ⟨rfl, fun b hb => Or.inl hb, fun bs hbs => by cases hbs⟩

theorem log_activity_ok_spec (o : Oracle) (s : Store) (p : ActivityCreate)
    (r : LogResult) (s' : Store) (o' : Oracle)
    (h : log_activity o s p = (.ok r, s', o')) :
    ∃ per, POINTS_TABLE p.activity_type = some per ∧
      r.points = per * max 1 p.quantity ∧
      r.badges.map Prod.snd = maybe_badges p.activity_type p.quantity r.points ∧
      s'.activities = s.activities ++
        [⟨p.username, p.activity_type, max 1 p.quantity, r.points, p.notes⟩] ∧
      s'.badges = s.badges ++
        (maybe_badges p.activity_type p.quantity r.points).map
          (mkBadge p.username) := by
  rcases hpt : POINTS_TABLE p.activity_type with _ | per
  · rw [log_activity, hpt] at h
    cases h
  rw [log_activity, hpt] at h
  rcases hdb : dbStep o with ⟨m, o1⟩
  rw [hdb] at h
  rcases m with _ | msg
  swap
  · cases h
  dsimp only at h
  rcases hins : insertBadges p.username o1
      { s with
        activities := s.activities ++
          [⟨p.username, p.activity_type, max 1 p.quantity,
            per * max 1 p.quantity, p.notes⟩],
        nextId := s.nextId + 1 }
      (maybe_badges p.activity_type p.quantity (per * max 1 p.quantity))
      with ⟨res1, s2, o2⟩
  rw [hins] at h
  rcases res1 with msg1 | bs
  · cases h
  dsimp only at h
  obtain ⟨h1, rfl, rfl⟩ := Prod.mk.injEq .. ▸ h
  obtain rfl : r = ⟨s.nextId, per * max 1 p.quantity, bs⟩ :=
    (Except.ok.injEq .. ▸ h1).symm
  have hib := insertBadges_cases p.username _ o1 _ _ _ _ hins
  refine ⟨per, rfl, rfl, ?_, ?_, ?_⟩
  · exact (hib.2.2 bs rfl).1
  · exact hib.1
  · have := (hib.2.2 bs rfl).2
    simpa using this

/-! ### The badge rules -/

theorem plant_power_ne_big_impact : plant_power ≠ big_impact := by decide

theorem big_impact_mem_maybe_badges (t : String) (q tp : Int) :
    big_impact ∈ maybe_badges t q tp ↔ 50 ≤ tp := by
  unfold maybe_badges
  rcases le_or_lt 50 tp with h | h
  · simp [h]
  · have : ¬ (50 : Int) ≤ tp := not_le.mpr h
    simp only [this, if_false, List.append_nil, iff_false]
    intro hmem
    split at hmem
    · simp only [List.mem_singleton] at hmem
      exact plant_power_ne_big_impact hmem.symm
    · simp at hmem

theorem plant_power_mem_maybe_badges (t : String) (q tp : Int) :
    plant_power ∈ maybe_badges t q tp ↔ (t = "vegan_meal" ∧ 3 ≤ q) := by
  unfold maybe_badges
  by_cases hv : t = "vegan_meal" ∧ 3 ≤ q
  · simp only [hv, if_true, iff_true, and_true]
    simp
  · simp only [hv, if_false, iff_false]
    intro hmem
    simp only [List.nil_append] at hmem
    split at hmem
    · simp only [List.mem_singleton] at hmem
      exact plant_power_ne_big_impact hmem
    · simp at hmem

theorem maybe_badges_both (t : String) (q tp : Int)
    (ht : t = "vegan_meal") (hq : 3 ≤ q) (htp : 50 ≤ tp) :
    maybe_badges t q tp = [plant_power, big_impact] := by
  simp [maybe_badges, ht, hq, htp]

/-! ### Claims about `log_activity` -/

/-- C1: for every activity type in the fixed 7-tag set and every integer
quantity, a successful `log_activity` awards
`max(1, quantity) * POINTS_TABLE[activityType]` points: the table value is
looked up in the fixed table and the effective quantity is clamped to 1 from
below. -/
theorem log_activity_awards_table_points (o : Oracle) (s : Store)
    (p : ActivityCreate) (_hmem : p.activity_type ∈ VALID_TYPES)
    (r : LogResult) (s' : Store) (o' : Oracle)
    (h : log_activity o s p = (.ok r, s', o')) :
    ∃ per, POINTS_TABLE p.activity_type = some per ∧
      r.points = max 1 p.quantity * per := by
  obtain ⟨per, hper, hpts, -⟩ := log_activity_ok_spec o s p r s' o' h
  exact ⟨per, hper, by rw [hpts, mul_comm]⟩

theorem log_activity_awards_table_points_witness :
    ("refill" : String) ∈ VALID_TYPES ∧
      ∃ per, POINTS_TABLE "refill" = some per ∧
        (⟨0, 6, []⟩ : LogResult).points = max 1 (-2 : Int) * per := by
  refine ⟨by decide, ?_⟩
  exact log_activity_awards_table_points [] store0
    ⟨"a", "refill", -2, none⟩ (by decide) ⟨0, 6, []⟩
    ⟨[⟨"a", "refill", 1, 6, none⟩], [], 1⟩ [] rfl

/-- C2: a `log_activity` call whose activity type is outside the fixed
7-tag set always fails with the 400 "Unknown activity type" error and leaves
the store untouched: no activity and no badge record is persisted. -/
theorem log_activity_unknown_type_rejected (o : Oracle) (s : Store)
    (p : ActivityCreate) (hmem : p.activity_type ∉ VALID_TYPES) :
    log_activity o s p = (.error ⟨400, "Unknown activity type"⟩, s, o) := by
  rw [log_activity, POINTS_TABLE_eq_none_of_not_mem hmem]

theorem log_activity_unknown_type_rejected_witness :
    ("jetski" : String) ∉ VALID_TYPES ∧
      log_activity [] store0 ⟨"a", "jetski", 1, none⟩ =
        (.error ⟨400, "Unknown activity type"⟩, store0, []) :=
  ⟨by decide,
    log_activity_unknown_type_rejected [] store0 ⟨"a", "jetski", 1, none⟩
      (by decide)⟩

/-- C3: on every successful `log_activity` call, the returned badge list
contains the `big_impact` descriptor if and only if the points computed for
this single activity are at least 50. -/
theorem log_activity_big_impact_iff (o : Oracle) (s : Store)
    (p : ActivityCreate) (r : LogResult) (s' : Store) (o' : Oracle)
    (h : log_activity o s p = (.ok r, s', o')) :
    big_impact ∈ r.badges.map Prod.snd ↔ 50 ≤ r.points := by
  obtain ⟨per, hper, hpts, hbadges, -⟩ := log_activity_ok_spec o s p r s' o' h
  rw [hbadges, big_impact_mem_maybe_badges]

theorem log_activity_big_impact_iff_witness :
    big_impact ∈
        ((⟨0, 50, [(1, big_impact)]⟩ : LogResult).badges.map Prod.snd) ↔
      50 ≤ (⟨0, 50, [(1, big_impact)]⟩ : LogResult).points :=
  log_activity_big_impact_iff [] store0 ⟨"neo", "tree_planting", 1, none⟩
    ⟨0, 50, [(1, big_impact)]⟩
    ⟨[⟨"neo", "tree_planting", 1, 50, none⟩],
      [mkBadge "neo" big_impact], 2⟩ [] rfl

/-- C4: on every successful `log_activity` call, the returned badge list
contains the `plant_power` descriptor iff the activity type is `vegan_meal`
and the (raw) quantity is at least 3; and when both badge rules fire, the
returned sequence is exactly `plant_power` then `big_impact`, and the two
badge records are persisted in that same order. -/
theorem log_activity_plant_power_spec (o : Oracle) (s : Store)
    (p : ActivityCreate) (r : LogResult) (s' : Store) (o' : Oracle)
    (h : log_activity o s p = (.ok r, s', o')) :
    (plant_power ∈ r.badges.map Prod.snd ↔
      (p.activity_type = "vegan_meal" ∧ 3 ≤ p.quantity)) ∧
    (p.activity_type = "vegan_meal" → 3 ≤ p.quantity → 50 ≤ r.points →
      r.badges.map Prod.snd = [plant_power, big_impact] ∧
      s'.badges = s.badges ++
        [mkBadge p.username plant_power, mkBadge p.username big_impact]) := by
  obtain ⟨per, hper, hpts, hbadges, -, hsb⟩ :=
    log_activity_ok_spec o s p r s' o' h
  constructor
  · rw [hbadges, plant_power_mem_maybe_badges]
  · intro ht hq htp
    have hmb := maybe_badges_both p.activity_type p.quantity r.points ht hq htp
    constructor
    · rw [hbadges, hmb]
    · rw [hsb, hmb]
      rfl

theorem log_activity_plant_power_spec_witness :
    ((plant_power ∈
        ((⟨0, 50, [(1, plant_power), (2, big_impact)]⟩ :
          LogResult).badges.map Prod.snd) ↔
      (("vegan_meal" : String) = "vegan_meal" ∧ 3 ≤ (5 : Int))) ∧
    (("vegan_meal" : String) = "vegan_meal" → 3 ≤ (5 : Int) →
      50 ≤ (⟨0, 50, [(1, plant_power), (2, big_impact)]⟩ : LogResult).points →
      (⟨0, 50, [(1, plant_power), (2, big_impact)]⟩ :
          LogResult).badges.map Prod.snd = [plant_power, big_impact] ∧
      (⟨[⟨"neo", "vegan_meal", 5, 50, none⟩],
        [mkBadge "neo" plant_power, mkBadge "neo" big_impact], 3⟩ :
          Store).badges = store0.badges ++
        [mkBadge "neo" plant_power, mkBadge "neo" big_impact])) :=
  log_activity_plant_power_spec [] store0 ⟨"neo", "vegan_meal", 5, none⟩
    ⟨0, 50, [(1, plant_power), (2, big_impact)]⟩
    ⟨[⟨"neo", "vegan_meal", 5, 50, none⟩],
      [mkBadge "neo" plant_power, mkBadge "neo" big_impact], 3⟩ [] rfl

/-! ### The leaderboard aggregation -/

theorem mem_insertDesc (x y : String × Int) (l : List (String × Int)) :
    y ∈ insertDesc x l ↔ y = x ∨ y ∈ l := by
  induction l with
  | nil => simp [insertDesc]
  | cons z zs ih =>
    rw [insertDesc]
    split
    · simp
    · simp only [List.mem_cons, ih]
      tauto

theorem mem_sortDesc (y : String × Int) (l : List (String × Int)) :
    y ∈ sortDesc l ↔ y ∈ l := by
  induction l with
  | nil => simp [sortDesc]
  | cons z zs ih =>
    rw [sortDesc, mem_insertDesc]
    simp [ih]

theorem length_insertDesc (x : String × Int) (l : List (String × Int)) :
    (insertDesc x l).length = l.length + 1 := by
  induction l with
  | nil => rfl
  | cons z zs ih =>
    rw [insertDesc]
    split
    · rfl
    · simp [ih]

theorem length_sortDesc (l : List (String × Int)) :
    (sortDesc l).length = l.length := by
  induction l with
  | nil => rfl
  | cons z zs ih =>
    rw [sortDesc, length_insertDesc, ih]
    rfl

theorem pairwise_insertDesc (x : String × Int) (l : List (String × Int))
    (h : l.Pairwise (fun a b => b.2 ≤ a.2)) :
    (insertDesc x l).Pairwise (fun a b => b.2 ≤ a.2) := by
  induction l with
  | nil => simp [insertDesc]
  | cons z zs ih =>
    rw [insertDesc]
    rw [List.pairwise_cons] at h
    split
    · rename_i hz
      refine List.pairwise_cons.mpr ⟨?_, List.pairwise_cons.mpr h⟩
      intro b hb
      rcases List.mem_cons.mp hb with rfl | hb
      · exact hz
      · exact le_trans (h.1 b hb) hz
    · rename_i hz
      refine List.pairwise_cons.mpr ⟨?_, ih h.2⟩
      intro b hb
      rcases (mem_insertDesc x b zs).mp hb with rfl | hb
      · exact le_of_lt (lt_of_not_le hz)
      · exact h.1 b hb

theorem pairwise_sortDesc (l : List (String × Int)) :
    (sortDesc l).Pairwise (fun a b => b.2 ≤ a.2) := by
  induction l with
  | nil => exact List.Pairwise.nil
  | cons z zs ih => exact pairwise_insertDesc z (sortDesc zs) ih

theorem mem_groupRows (e : String × Int) (acts : List Activity)
    (h : e ∈ groupRows acts) : e.2 = totalPoints e.1 acts := by
  obtain ⟨u, -, rfl⟩ := List.mem_map.mp h
  rfl

/-- C5: for every store state and every limit, the leaderboard returns at
most `limit` entries, each entry's points are the sum of the points of that
username's activity records, and the entries are in descending order of
summed points. -/
theorem leaderboard_spec (s : Store) (limit : Nat) :
    (leaderboard limit s).length ≤ limit ∧
    (∀ e ∈ leaderboard limit s, e.2 = totalPoints e.1 s.activities) ∧
    (leaderboard limit s).Pairwise (fun a b => b.2 ≤ a.2) := by
  refine ⟨List.length_take_le limit _, fun e he => ?_, ?_⟩
  · have : e ∈ sortDesc (groupRows s.activities) :=
      List.mem_of_mem_take he
    exact mem_groupRows e s.activities
      ((mem_sortDesc e (groupRows s.activities)).mp this)
  · exact (pairwise_sortDesc (groupRows s.activities)).sublist
      (List.take_sublist limit _)

/-! ### Store effects of the write operations, and reachability invariants -/

theorem log_activity_effects (o : Oracle) (s : Store) (p : ActivityCreate) :
    (log_activity o s p).2.1 = s ∨
    ∃ per, POINTS_TABLE p.activity_type = some per ∧
      (log_activity o s p).2.1.activities = s.activities ++
        [⟨p.username, p.activity_type, max 1 p.quantity,
          per * max 1 p.quantity, p.notes⟩] ∧
      ∀ b ∈ (log_activity o s p).2.1.badges,
        b ∈ s.badges ∨ b.username = p.username := by
  rcases hpt : POINTS_TABLE p.activity_type with _ | per
  · left
    rw [log_activity, hpt]
  · rw [log_activity, hpt]
    rcases hdb : dbStep o with ⟨m, o1⟩
    rcases m with _ | msg
    swap
    · left
      rfl
    dsimp only
    rcases hins : insertBadges p.username o1
        { s with
          activities := s.activities ++
            [⟨p.username, p.activity_type, max 1 p.quantity,
              per * max 1 p.quantity, p.notes⟩],
          nextId := s.nextId + 1 }
        (maybe_badges p.activity_type p.quantity (per * max 1 p.quantity))
        with ⟨res1, s2, o2⟩
    have hib := insertBadges_cases p.username _ o1 _ _ _ _ hins
    right
    refine ⟨per, rfl, ?_, ?_⟩
    · rcases res1 with msg1 | bs <;> simpa using hib.1
    · rcases res1 with msg1 | bs <;>
      · intro b hb
        have hb2 := hib.2.1 b (by simpa using hb)
        simpa using hb2

theorem seedLoop_preserves (P : Store → Prop)
    (hP : ∀ (o : Oracle) (s : Store) (p : ActivityCreate),
      P s → P (log_activity o s p).2.1)
    (u : String) (items : List (String × Int)) :
    ∀ (o : Oracle) (s : Store), P s → P (seedLoop u o s items).2.1 := by
  induction items with
  | nil => intro o s hs; exact hs
  | cons it rest ih =>
    intro o s hs
    rw [seedLoop]
    rcases hl : log_activity o s ⟨u, it.1, it.2, none⟩ with ⟨res, s1, o1⟩
    have hs1 : P s1 := by
      have := hP o s ⟨u, it.1, it.2, none⟩ hs
      rw [hl] at this
      exact this
    rcases res with e | r
    · exact hs1
    · dsimp only
      rcases hrec : seedLoop u o1 s1 rest with ⟨res2, s2, o2⟩
      have hs2 : P s2 := by
        have := ih o1 s1 hs1
        rw [hrec] at this
        exact this
      rcases res2 with e2 | rs <;> exact hs2

theorem step_preserves (P : Store → Prop)
    (hlog : ∀ (o : Oracle) (s : Store) (p : ActivityCreate),
      P s → P (log_activity o s p).2.1) :
    ∀ {s s' : Store}, Step s s' → P s → P s' := by
  intro s s' hstep
  cases hstep with
  | log o p s => exact fun h => hlog o s p h
  | seedCall o u s => exact fun h => seedLoop_preserves P hlog u demoItems o s h

theorem reachable_preserves (P : Store → Prop) (h0 : P store0)
    (hlog : ∀ (o : Oracle) (s : Store) (p : ActivityCreate),
      P s → P (log_activity o s p).2.1) :
    ∀ s, Reachable s → P s := by
  intro s hr
  induction hr with
  | init => exact h0
  | step _ hstep ih => exact step_preserves P hlog hstep ih

theorem activitiesOk_log (o : Oracle) (s : Store) (p : ActivityCreate)
    (hs : ActivitiesOk s) : ActivitiesOk (log_activity o s p).2.1 := by
  rcases log_activity_effects o s p with heq | ⟨per, hper, hacts, -⟩
  · rw [heq]
    exact hs
  · intro a ha
    rw [hacts] at ha
    rcases List.mem_append.mp ha with ha | ha
    · exact hs a ha
    · rw [List.mem_singleton] at ha
      subst ha
      refine ⟨le_max_left 1 _, ?_, per, hper, mul_comm per _⟩
      exact mul_nonneg (le_of_lt (POINTS_TABLE_pos hper))
        (le_trans zero_le_one (le_max_left 1 _))

theorem badgesBacked_log (o : Oracle) (s : Store) (p : ActivityCreate)
    (hs : BadgesBacked s) : BadgesBacked (log_activity o s p).2.1 := by
  rcases log_activity_effects o s p with heq | ⟨per, hper, hacts, hbad⟩
  · rw [heq]
    exact hs
  · intro b hb
    rcases hbad b hb with hb1 | hb1
    · obtain ⟨a, ha, hau⟩ := hs b hb1
      exact ⟨a, by rw [hacts]; exact List.mem_append_left _ ha, hau⟩
    · refine ⟨⟨p.username, p.activity_type, max 1 p.quantity,
        per * max 1 p.quantity, p.notes⟩, ?_, hb1.symm⟩
      rw [hacts]
      exact List.mem_append_right _ (List.mem_singleton.mpr rfl)

theorem reachable_activitiesOk (s : Store) (hr : Reachable s) :
    ActivitiesOk s :=
  reachable_preserves ActivitiesOk (fun a ha => absurd ha (List.not_mem_nil a))
    activitiesOk_log s hr

theorem reachable_badgesBacked (s : Store) (hr : Reachable s) :
    BadgesBacked s :=
  reachable_preserves BadgesBacked (fun b hb => absurd hb (List.not_mem_nil b))
    badgesBacked_log s hr

/-- C9: in every reachable store state, every persisted activity record has
quantity at least 1 and points equal to quantity times the table value of its
activity type (hence nonnegative), never taken from caller input — this
covers every successful `log_activity` and `seed` call, for every input
quantity including values below 1. -/
theorem persisted_activity_invariant (s : Store) (hr : Reachable s) :
    ∀ a ∈ s.activities, 1 ≤ a.quantity ∧ 0 ≤ a.points ∧
      ∃ per, POINTS_TABLE a.activity_type = some per ∧
        a.points = a.quantity * per :=
  reachable_activitiesOk s hr

theorem persisted_activity_invariant_witness :
    1 ≤ (⟨"a", "recycling", 1, 8, none⟩ : Activity).quantity ∧
    0 ≤ (⟨"a", "recycling", 1, 8, none⟩ : Activity).points ∧
    ∃ per, POINTS_TABLE (⟨"a", "recycling", 1, 8, none⟩ :
        Activity).activity_type = some per ∧
      (⟨"a", "recycling", 1, 8, none⟩ : Activity).points =
        (⟨"a", "recycling", 1, 8, none⟩ : Activity).quantity * per :=
  persisted_activity_invariant
    (log_activity [] store0 ⟨"a", "recycling", -4, none⟩).2.1
    (Reachable.step Reachable.init
      (Step.log [] ⟨"a", "recycling", -4, none⟩ store0))
    ⟨"a", "recycling", 1, 8, none⟩
    (List.mem_singleton.mpr rfl)

/-! ### The shareable summary -/

/-- C6: in every reachable store state, the shareable summary of a user with
zero activity records has zero total points, zero activities logged, an empty
badge list, and the share text
`"<username> earned 0 Green Points with 0 eco actions! 🌿"`. -/
theorem shareable_summary_zero_activities (s : Store) (u : String)
    (hr : Reachable s) (hfresh : ∀ a ∈ s.activities, a.username ≠ u) :
    shareable_summary s u =
      ⟨u, 0, 0, [], u ++ " earned 0 Green Points with 0 eco actions! 🌿"⟩ := by
  have hact : s.activities.filter (fun a => a.username = u) = [] :=
    List.filter_eq_nil_iff.mpr (fun a ha => by simp [hfresh a ha])
  have hbad : s.badges.filter (fun b => b.username = u) = [] := by
    refine List.filter_eq_nil_iff.mpr (fun b hb => ?_)
    obtain ⟨a, ha, hau⟩ := reachable_badgesBacked s hr b hb
    simp only [decide_eq_true_eq]
    intro hbu
    exact hfresh a ha (hau.trans hbu)
  rw [shareable_summary]
  simp only [hact, hbad, List.map_nil, List.sum_nil, List.length_nil]
  refine congrArg (SummaryOut.mk u 0 0 []) ?_
  simp only [String.append_assoc]
  rfl

theorem shareable_summary_zero_activities_witness :
    shareable_summary store0 "zoe" =
      ⟨"zoe", 0, 0, [],
        "zoe" ++ " earned 0 Green Points with 0 eco actions! 🌿"⟩ :=
  shareable_summary_zero_activities store0 "zoe" Reachable.init
    (fun a ha => absurd ha (List.not_mem_nil a))

/-! ### Partial persistence failure -/

theorem insertBadges_fail (u : String) :
    ∀ (j : Nat) (ds : List BadgeDescr), j < ds.length →
      ∀ (o1 : Oracle) (s : Store) (msg : String),
        insertBadges u (List.replicate j none ++ some msg :: o1) s ds =
          (.error msg,
            ⟨s.activities, s.badges ++ (ds.take j).map (mkBadge u),
              s.nextId + j⟩,
            o1) := by
  intro j
  induction j with
  | zero =>
    intro ds hj o1 s msg
    cases ds with
    | nil => simp at hj
    | cons d ds' =>
      rw [insertBadges]
      simp [dbStep]
  | succ j ih =>
    intro ds hj o1 s msg
    cases ds with
    | nil => simp at hj
    | cons d ds' =>
      have hj' : j < ds'.length := by
        simpa [Nat.succ_lt_succ_iff] using hj
      rw [List.replicate_succ, List.cons_append, insertBadges]
      have hdb : dbStep (none :: (List.replicate j none ++ some msg :: o1)) =
          (none, List.replicate j none ++ some msg :: o1) := rfl
      rw [hdb]
      dsimp only
      rw [ih ds' hj' o1 ⟨s.activities, s.badges ++ [mkBadge u d],
        s.nextId + 1⟩ msg]
      dsimp only
      refine congrArg (fun t => (Except.error msg, t, o1)) ?_
      refine congrArg₂ (Store.mk s.activities) ?_ ?_
      · simp [List.append_assoc]
      · omega

/-- C7: any persistence failure inside `log_activity` surfaces as a 500
error carrying the originating exception message, with no rollback: for
every payload with a valid type, (a) if the activity insert fails the store
is untouched, and (b) if the (j+1)-th badge insert fails, the activity
record and the j badge records persisted before the failure all remain in
the store while the failing and later badges are absent; in particular (c)
there is an execution where the activity record remains persisted although
a subsequent badge persist failed and the call returned an error. -/
theorem log_activity_storage_failure :
    (∀ (o1 : Oracle) (s : Store) (p : ActivityCreate) (per : Int)
        (msg : String), POINTS_TABLE p.activity_type = some per →
      log_activity (some msg :: o1) s p = (.error ⟨500, msg⟩, s, o1)) ∧
    (∀ (o1 : Oracle) (s : Store) (p : ActivityCreate) (per : Int)
        (msg : String) (j : Nat),
      POINTS_TABLE p.activity_type = some per →
      j < (maybe_badges p.activity_type p.quantity
        (per * max 1 p.quantity)).length →
      log_activity (none :: (List.replicate j none ++ some msg :: o1)) s p =
        (.error ⟨500, msg⟩,
          ⟨s.activities ++
              [⟨p.username, p.activity_type, max 1 p.quantity,
                per * max 1 p.quantity, p.notes⟩],
            s.badges ++
              ((maybe_badges p.activity_type p.quantity
                (per * max 1 p.quantity)).take j).map (mkBadge p.username),
            s.nextId + 1 + j⟩,
          o1)) ∧
    (log_activity [none, some "disk full"] store0
        ⟨"neo", "tree_planting", 1, none⟩ =
      (.error ⟨500, "disk full"⟩,
        ⟨[⟨"neo", "tree_planting", 1, 50, none⟩], [], 1⟩, [])) := by
  refine ⟨?_, ?_, rfl⟩
  · intro o1 s p per msg hper
    rw [log_activity, hper]
    rfl
  · intro o1 s p per msg j hper hj
    rw [log_activity, hper]
    have hdb : dbStep (none :: (List.replicate j none ++ some msg :: o1)) =
        (none, List.replicate j none ++ some msg :: o1) := rfl
    rw [hdb]
    dsimp only
    have hins := insertBadges_fail p.username j
      (maybe_badges p.activity_type p.quantity (per * max 1 p.quantity)) hj o1
      (⟨s.activities ++
        [⟨p.username, p.activity_type, max 1 p.quantity,
          per * max 1 p.quantity, p.notes⟩],
        s.badges, s.nextId + 1⟩ : Store) msg
    rw [hins]

theorem log_activity_storage_failure_witness :
    POINTS_TABLE "vegan_meal" = some 10 ∧
    1 < (maybe_badges "vegan_meal" 5 (10 * max 1 (5 : Int))).length ∧
    log_activity (none :: (List.replicate 1 none ++ some "disk full" :: []))
        store0 ⟨"neo", "vegan_meal", 5, none⟩ =
      (.error ⟨500, "disk full"⟩,
        ⟨store0.activities ++
            [⟨"neo", "vegan_meal", max 1 (5 : Int),
              10 * max 1 (5 : Int), none⟩],
          store0.badges ++
            ((maybe_badges "vegan_meal" 5
              (10 * max 1 (5 : Int))).take 1).map (mkBadge "neo"),
          store0.nextId + 1 + 1⟩,
        []) :=
  ⟨rfl, by decide,
    log_activity_storage_failure.2.1 [] store0 ⟨"neo", "vegan_meal", 5, none⟩
      10 "disk full" 1 rfl (by decide)⟩

/-! ### The empty-username filter -/

/-- C10: when the username supplied to `list_activities` or `get_badges` is
the empty string, the Python truthiness test skips the filter entirely, so
the call behaves exactly like a call with no username at all and returns
records across all users. -/
theorem empty_username_means_no_filter (s : Store) (limit : Nat) :
    list_activities s (some "") limit = list_activities s none limit ∧
    get_badges s (some "") = get_badges s none :=
  ⟨rfl, rfl⟩

/-! ### Seeding then reading the leaderboard -/

theorem mem_firstOccurAux (u : String) (l : List String) :
    ∀ seen : List String,
      u ∈ firstOccurAux seen l ↔ (u ∈ l ∧ u ∉ seen) := by
  induction l with
  | nil => intro seen; simp [firstOccurAux]
  | cons v rest ih =>
    intro seen
    rw [firstOccurAux]
    split
    · rename_i hv
      rw [ih seen]
      simp only [List.mem_cons]
      constructor
      · exact fun ⟨h1, h2⟩ => ⟨Or.inr h1, h2⟩
      · rintro ⟨h1 | h1, h2⟩
        · exact absurd (h1 ▸ hv) h2
        · exact ⟨h1, h2⟩
    · rename_i hv
      simp only [List.mem_cons, ih (seen ++ [v]), List.mem_append,
        List.mem_singleton]
      constructor
      · rintro (rfl | ⟨h1, h2⟩)
        · exact ⟨Or.inl rfl, hv⟩
        · exact ⟨Or.inr h1, fun hs => h2 (Or.inl hs)⟩
      · rintro ⟨rfl | h1, h2⟩
        · exact Or.inl rfl
        · by_cases huv : u = v
          · exact Or.inl huv
          · exact Or.inr ⟨h1, by simp [h2, huv]⟩

theorem mem_firstOccur (u : String) (l : List String) :
    u ∈ firstOccur l ↔ u ∈ l := by
  rw [firstOccur, mem_firstOccurAux]
  simp

/-- C8: calling `seed` for a fresh username (no insert failing) and then
`leaderboard` with a limit that does not truncate the user away yields an
entry for that username whose summed points are
`15*2 + 10*3 + 8*5 + 12*1 = 112`. -/
theorem seed_fresh_leaderboard (s : Store) (u : String) (limit : Nat)
    (hfresh : ∀ a ∈ s.activities, a.username ≠ u)
    (hlimit : (groupRows (seed [] s u).2.1.activities).length ≤ limit) :
    (u, 112) ∈ leaderboard limit (seed [] s u).2.1 := by
  have hacts : (seed [] s u).2.1.activities =
      (((s.activities ++ [⟨u, "public_transport", 2, 30, none⟩]) ++
        [⟨u, "vegan_meal", 3, 30, none⟩]) ++
        [⟨u, "recycling", 5, 40, none⟩]) ++
        [⟨u, "bike_ride", 1, 12, none⟩] := rfl
  have hnil : s.activities.filter (fun a => a.username = u) = [] :=
    List.filter_eq_nil_iff.mpr (fun a ha => by simp [hfresh a ha])
  have htot : totalPoints u (seed [] s u).2.1.activities = 112 := by
    rw [totalPoints, hacts]
    simp only [List.filter_append, hnil]
    norm_num [List.filter, List.sum_append]
  have humem : u ∈ (seed [] s u).2.1.activities.map
      (fun a => a.username) := by
    rw [hacts]
    refine List.mem_map.mpr ⟨⟨u, "bike_ride", 1, 12, none⟩, ?_, rfl⟩
    exact List.mem_append_right _ (List.mem_singleton.mpr rfl)
  have hgroup : (u, (112 : Int)) ∈ groupRows (seed [] s u).2.1.activities := by
    rw [← htot, groupRows]
    exact List.mem_map.mpr ⟨u, (mem_firstOccur u _).mpr humem, rfl⟩
  rw [leaderboard, List.take_of_length_le]
  · exact (mem_sortDesc _ _).mpr hgroup
  · rw [length_sortDesc]
    exact hlimit

theorem seed_fresh_leaderboard_witness :
    ("neo", (112 : Int)) ∈ leaderboard 10 (seed [] store0 "neo").2.1 :=
  seed_fresh_leaderboard store0 "neo" 10
    (fun a ha => absurd ha (List.not_mem_nil a))
    (show (1 : Nat) ≤ 10 by norm_num)

end GreenPoints
